import Mathlib

/-!
# UnTup: flattening nested tuple-like objects

A shallow embedding of `untup.hh`.  The header is a compile-time algorithm: which
overload of `detail::untie` runs and what the element types of the result are is
decided by the *type* of the argument, while the references it hands out designate
*storage*.  Both are kept in one tree (`Obj`): a typed object whose scalar parts carry
the address of their storage.  A call that the compiler rejects is `none`, and a
constraint whose check is itself a hard error is `none` as well.
-/

set_option linter.dupNamespace false

namespace untup

/-! ## Types and objects -/

/-- Reference category of a declared type: `T`, `T&` or `T&&`. -/
inductive RefKind where
  | none
  | lvalue
  | rvalue
deriving DecidableEq, Repr

/-- Object types that are not specialisations of a class template. -/
inductive Prim where
  | int
  | char
  | size_t
deriving DecidableEq, Repr

/-- Qualification of a declared type: `isConst` is the const-qualification of the object
type (of the referent, for a reference), `ref` its reference category.  So `const int&`
is `⟨true, .lvalue⟩` and `int&&` is `⟨false, .rvalue⟩`. -/
structure Qual where
  isConst : Bool
  ref : RefKind
deriving DecidableEq, Repr

/-- A typed object.  The constructor is the cv-unqualified type; the addresses say where
the value is stored.  An element of a `tuple` or `pair` is its declared qualification
together with the object that `std::get` designates for it: the sub-object itself for a
non-reference element, the referent for a reference element.

* `prim n a`: an `int`, `char` or `std::size_t` stored at `a`;
* `klass n a`: a specialisation of a class template with type-only parameters for which
  `std::tuple_size` is not defined (`std::vector<int>`, `std::optional<char>`,
  `std::string`), stored at `a`;
* `array e as`: a `std::array<e, N>` whose `N` elements are stored at `as`;
* `tuple es`: a `std::tuple<Elements...>`;
* `pair q1 a q2 b`: a `std::pair<A, B>`. -/
inductive Obj where
  | prim (name : Prim) (addr : Nat)
  | klass (name : String) (addr : Nat)
  | array (elem : Prim) (addrs : List Nat)
  | tuple (elems : List (Qual × Obj))
  | pair (q1 : Qual) (first : Obj) (q2 : Qual) (second : Obj)
deriving Repr

/-- Memory: the value stored at each address. -/
abbrev Mem := Nat → Int

mutual
/-- The addresses an object's value occupies, in declaration order. -/
def Obj.cells : Obj → List Nat
  | .prim _ a => [a]
  | .klass _ a => [a]
  | .array _ as => as
  | .tuple es => cellsPack es
  | .pair _ a _ b => a.cells ++ b.cells
/-- The addresses of a list of elements. -/
def cellsPack : List (Qual × Obj) → List Nat
  | [] => []
  | (_, o) :: rest => o.cells ++ cellsPack rest
end

/-- The value of an object: the contents of its cells. -/
def Obj.load (mem : Mem) (o : Obj) : List Int :=
  o.cells.map mem

/-- Store the values `vs` into the cells `as`, one by one. -/
def store (mem : Mem) : List Nat → List Int → Mem
  | a :: as, v :: vs => store (Function.update mem a v) as vs
  | _, _ => mem

/-! ## `std` type traits used by the header -/

namespace std

/-- The trait `std::add_const_t<T>`: adds `const` to an object type and leaves a
reference type as it is. -/
def add_const_t (T : Qual) : Qual :=
  match T.ref with
  | .none => { T with isConst := true }
  | _ => T

/-- The type `T&` after reference collapsing: always an lvalue reference, to the same
(possibly const) object type. -/
def add_lvalue_reference_t (T : Qual) : Qual :=
  { T with ref := .lvalue }

/-- Whether `std::convertible_to<From, To>` holds for two lvalue references to the same
object type: `const` may be added, not dropped. -/
def convertible_to (From To : Qual) : Bool :=
  From.ref == .lvalue && To.ref == .lvalue && (!From.isConst || To.isConst)

/-- The value `std::tuple_size_v<T>`.  It is `std::tuple_size<T>::value`, read in the
initialiser of a variable template: for a type without a `std::tuple_size` specialisation
that is an error outside the immediate context, a hard error (`none`), not a substitution
failure. -/
def tuple_size_v : Obj → Option Nat
  | .tuple es => some es.length
  | .pair _ _ _ _ => some 2
  | .array _ as => some as.length
  | _ => none

/-- The type `std::tuple_element_t<N, T>` for a cv-unqualified `T`: its qualification. -/
def tuple_element_t (N : Nat) : Obj → Option Qual
  | .tuple es => (es.get? N).map Prod.fst
  | .pair q1 _ q2 _ => [q1, q2].get? N
  | .array _ as => if N < as.length then some ⟨false, .none⟩ else none
  | _ => none

end std

/-! ## `tuple_sum` -/

namespace tuple_sum

/-- The operator `t1 + t2`: `std::apply` unpacks `t1` into `els1...`, then `t2` into
`els2...`, and the result is `{ els1..., els2... }`. -/
def add {α : Type} (t1 t2 : List α) : List α :=
  t1 ++ t2

end tuple_sum

/-! ## `p2165r2` -/

namespace p2165r2

/-- The concept `is_tuple_element<T, N>` for a non-reference `T` (`Tconst` says whether
`T` is const): `std::tuple_element_t<N, std::remove_const_t<T>>` names a type, and
`get<N>(t)` on an lvalue `t` converts to `std::tuple_element_t<N, T>&`. -/
def is_tuple_element (Tconst : Bool) (o : Obj) (N : Nat) : Bool :=
  match std.tuple_element_t N o with
  | none => false
  | some E =>
    let got := std.add_lvalue_reference_t (if Tconst then std.add_const_t E else E)
    let want := std.add_lvalue_reference_t (if Tconst then std.add_const_t E else E)
    std.convertible_to got want

/-- The concept `tuple_like<T>`, a conjunction checked from left to right.  For a
reference type `!std::is_reference_v<T>` fails and nothing else is checked.  Otherwise
the requirement on `std::tuple_size_v<T>` is checked: where that is a hard error the
check of the concept is ill-formed (`none`); where it has a value, every index below it
must be a tuple element. -/
def tuple_like (T : Qual) (o : Obj) : Option Bool :=
  match T.ref with
  | .none =>
    match std.tuple_size_v o with
    | none => none
    | some n => some ((List.range n).all (is_tuple_element T.isConst o))
  | _ => some false

end p2165r2

/-! ## `detail` -/

namespace detail

/-- The alias `AddConst_T<T>`: the specialisation for `T&` gives `const T&`, the primary
template gives `std::add_const_t<T>`. -/
def AddConst (T : Qual) : Qual :=
  match T.ref with
  | .lvalue => { T with isConst := true }
  | _ => std.add_const_t T

/-- The wrapper `RefTo<T>`: the declared type `T` (its member `Type`) and the wrapped
reference `ref`, bound to an object of type `std::remove_reference_t<T>`. -/
structure RefTo where
  T : Qual
  ref : Obj
deriving Repr

/-- The outcome of overload resolution for `detail::untie`: one of its three overloads,
or `illFormed` when the check of a constraint is a hard error and the call does not
compile. -/
inductive Overload where
  | leaf
  | container
  | constContainer
  | illFormed
deriving DecidableEq, Repr

/-- Whether `T` has the form `Tup<Elements...>` (or `const Tup<Elements...>`) for a class
template `Tup` whose parameters are all types: template argument deduction for the two
container overloads.  A reference type has no such form, nor has a scalar, nor has
`std::array<T, N>`, whose second parameter is not a type. -/
def deducesTup (T : Qual) : Obj → Bool
  | .tuple _ => T.ref == .none
  | .pair _ _ _ _ => T.ref == .none
  | .klass _ _ => T.ref == .none
  | _ => false

/-- Overload resolution for `detail::untie(RefTo<T>)`.  Where deduction fails for the
container overloads only the leaf overload is a candidate.  Where it succeeds, the
constraint `tuple_like<Tup<Elements...>>` is checked for the unqualified type: if that
check is a hard error the call is ill-formed; if it holds, the container overload is more
specialised than the leaf overload, and the constness of `T` chooses between the two; if
it does not hold, the leaf overload is left. -/
def overload (T : Qual) (o : Obj) : Overload :=
  if deducesTup T o then
    match p2165r2.tuple_like ⟨false, .none⟩ o with
    | none => .illFormed
    | some true => if T.isConst then .constContainer else .container
    | some false => .leaf
  else .leaf

/-- Whether `detail::untie(RefTo<T>)` enters the object: overload resolution selects one
of the two container overloads. -/
def descends (T : Qual) (o : Obj) : Bool :=
  overload T o == .container || overload T o == .constContainer

/-- The unary left fold `(... + pack)` over the results of the recursive calls.  Over an
empty pack a unary fold of `+` is ill-formed; a pack with an ill-formed member is
ill-formed. -/
def leftFold : List (Option (List RefTo)) → Option (List RefTo)
  | [] => none
  | p :: ps =>
    ps.foldl (fun acc x => acc.bind fun a => x.bind fun b => some (tuple_sum.add a b)) p

mutual
/-- The function `detail::untie(RefTo<T>)`: the leaf overload returns the one-element
tuple of its argument; the container overloads apply `untie` to a `RefTo<Elements>`
(`RefTo<AddConst_T<Elements>>` for a const container) of every element and fold the
results with `+`; where overload resolution is ill-formed there is no result. -/
def untie (T : Qual) (o : Obj) : Option (List RefTo) :=
  match overload T o, o with
  | .illFormed, _ => none
  | .container, .tuple es => leftFold (untiePack false es)
  | .container, .pair q1 a q2 b => leftFold [untie q1 a, untie q2 b]
  | .constContainer, .tuple es => leftFold (untiePack true es)
  | .constContainer, .pair q1 a q2 b => leftFold [untie (AddConst q1) a, untie (AddConst q2) b]
  | _, _ => some [⟨T, o⟩]
/-- The pack expansion `untie(RefTo<Elements>(elements))...`, with `AddConst_T<Elements>`
for `Elements` when the container is const. -/
def untiePack (viaConst : Bool) : List (Qual × Obj) → List (Option (List RefTo))
  | [] => []
  | (E, o) :: rest => untie (if viaConst then AddConst E else E) o :: untiePack viaConst rest
end

end detail

/-! ## The public entry points -/

/-- Value category of an argument expression. -/
inductive ValueCategory where
  | lvalue
  | rvalue
deriving DecidableEq, Repr

/-- An argument expression: its value category, whether its type is const, and the
object it designates. -/
structure Arg where
  cat : ValueCategory
  isConst : Bool
  obj : Obj
deriving Repr

/-- An element of a flat result tuple.  `reference T target` is an element of reference
type `T` bound to `target`; `value T leaf val` is an element of object type `T`, with the
type of `leaf`, that holds its own value `val`. -/
inductive Element where
  | reference (T : Qual) (target : Obj)
  | value (T : Qual) (leaf : Obj) (val : List Int)
deriving Repr

/-- The declared qualification of an element. -/
def Element.T : Element → Qual
  | .reference T _ => T
  | .value T _ _ => T

/-- The leaf an element was initialised from. -/
def Element.leaf : Element → Obj
  | .reference _ o => o
  | .value _ o _ => o

/-- The value read through an element. -/
def Element.read (mem : Mem) : Element → List Int
  | .reference _ o => o.load mem
  | .value _ _ val => val

/-- The function `untie(T& t)` together with the deleted `untie(auto&&)`: an rvalue
selects the deleted overload; for an lvalue every `RefTo` of `detail::untie` becomes an
element of type `Refs::Type&` bound to `refs.ref.get()`. -/
def untie (t : Arg) : Option (List Element) :=
  match t.cat with
  | .rvalue => none
  | .lvalue =>
    (detail.untie ⟨t.isConst, .none⟩ t.obj).map
      (List.map fun r => .reference (std.add_lvalue_reference_t r.T) r.ref)

/-- Initialisation of a `std::tuple` element of type `Refs::Type` from the lvalue
`refs.ref.get()`: an object type copies the value, an lvalue reference binds, an rvalue
reference cannot bind to an lvalue. -/
def initElement (mem : Mem) (r : detail.RefTo) : Option Element :=
  match r.T.ref with
  | .none => some (.value r.T r.ref (r.ref.load mem))
  | .lvalue => some (.reference r.T r.ref)
  | .rvalue => none

/-- The braced initialiser `{ refs.ref.get()... }` of the result tuple: every element is
initialised in turn, and the whole is ill-formed when one of them is. -/
def initElements (mem : Mem) : List detail.RefTo → Option (List Element)
  | [] => some []
  | r :: rs => (initElement mem r).bind fun e => (initElements mem rs).map fun es => e :: es

/-- The parameter `const std::tuple<Elements...>& tup` bound to an argument: inside the
function it names the argument's object as a const lvalue, whatever the argument was. -/
def bindConstRef (arg : Arg) : Arg :=
  { arg with cat := .lvalue, isConst := true }

/-- The expression `const_cast<std::tuple<Elements...>&>(tup)`: the same object as a
non-const lvalue. -/
def const_cast (tup : Arg) : Arg :=
  { tup with cat := .lvalue, isConst := false }

/-- The function `untup(const std::tuple<Elements...>& tup)`: the parameter binds to
any `std::tuple`, const or not, lvalue or rvalue, and to nothing else; the root is
wrapped as `RefTo<std::tuple<Elements...>>{ const_cast<...>(tup) }`; the result holds
elements of type `Refs::Type`. -/
def untup (mem : Mem) (arg : Arg) : Option (List Element) :=
  match arg.obj with
  | .tuple _ =>
    let tup := bindConstRef arg
    (detail.untie ⟨(const_cast tup).isConst, .none⟩ (const_cast tup).obj).bind
      (initElements mem)
  | _ => none

/-- Assignment `std::get<k>(res) = v` on a flat result: through a reference element it
stores into the target, on a value element it replaces the held value; it is ill-formed
when the element is const or `k` is out of range. -/
def assign (mem : Mem) (res : List Element) (k : Nat) (v : List Int) :
    Option (Mem × List Element) :=
  match res.get? k with
  | some (.reference T o) =>
    if T.isConst then none else some (store mem o.cells v, res)
  | some (.value T o _) =>
    if T.isConst then none else some (mem, res.set k (.value T o v))
  | none => none

/-! ## The nested structure of the specification -/

/-- The positional elements of a positional container.  In the specification (section 3)
a positional container is a value with a fixed arity and an accessor for each index:
`std::tuple`, `std::pair` and the fixed-size `std::array` qualify. -/
def Obj.children : Obj → List (Qual × Obj)
  | .tuple es => es
  | .pair q1 a q2 b => [(q1, a), (q2, b)]
  | .array e as => as.map fun a => (⟨false, .none⟩, .prim e a)
  | _ => []

mutual
/-- The leaves of a nested structure as the specification defines them, in left-to-right
depth-first order: a `std::tuple`, `std::pair` or `std::array` held by value is a
positional container, whose elements are visited in index order; every other value, and
every element declared as a reference, is a leaf. -/
def specLeaves (T : Qual) : Obj → List Obj
  | .tuple es =>
    match T.ref with
    | .none => specLeavesPack es
    | _ => [.tuple es]
  | .pair q1 a q2 b =>
    match T.ref with
    | .none => specLeaves q1 a ++ specLeaves q2 b
    | _ => [.pair q1 a q2 b]
  | .array e as =>
    match T.ref with
    | .none => as.map fun a => .prim e a
    | _ => [.array e as]
  | o => [o]
/-- The leaves of the elements of a positional container, in index order. -/
def specLeavesPack : List (Qual × Obj) → List Obj
  | [] => []
  | (E, o) :: rest => specLeaves E o ++ specLeavesPack rest
end

/-! ## The nested structure as the recursion traverses it -/

/-- The elements of a container that `detail::untie` enters, as `std::apply` passes them
on. -/
def Obj.elements : Obj → List (Qual × Obj)
  | .tuple es => es
  | .pair q1 a q2 b => [(q1, a), (q2, b)]
  | _ => []

/-- A value at which the recursion stops: its declared qualification, whether the root or
a container on the way from the root to it is const, and the object it designates. -/
structure Leaf where
  declared : Qual
  constPath : Bool
  obj : Obj
deriving Repr

mutual
/-- The values at which the recursion of `detail::untie` stops, in left-to-right
depth-first order.  Only a `std::tuple` or `std::pair` held by value is entered; every
other value is one leaf, a `std::array` too, although the specification counts it as a
positional container (compare `specLeaves`), and so is every element declared as a
reference.  `constPath` says whether a const container lies above. -/
def leaves (constPath : Bool) (T : Qual) : Obj → List Leaf
  | .tuple es =>
    match T.ref with
    | .none => leavesPack (constPath || T.isConst) es
    | _ => [⟨T, constPath, .tuple es⟩]
  | .pair q1 a q2 b =>
    match T.ref with
    | .none => leaves (constPath || T.isConst) q1 a ++ leaves (constPath || T.isConst) q2 b
    | _ => [⟨T, constPath, .pair q1 a q2 b⟩]
  | o => [⟨T, constPath, o⟩]
/-- The same for the elements of a container, in index order. -/
def leavesPack (constPath : Bool) : List (Qual × Obj) → List Leaf
  | [] => []
  | (E, o) :: rest => leaves constPath E o ++ leavesPack constPath rest
end

mutual
/-- Whether `detail::untie(RefTo<T>)` compiles for an object.  Two things stop it: a
class-template specialisation without `std::tuple_size` met by value, where the check of
`tuple_like` is a hard error, and a `std::tuple<>` that is entered, where the unary fold
over `+` is ill-formed.  The theorem `untie_isSome` shows that this is exactly when
`detail.untie` has a result. -/
def compiles (T : Qual) : Obj → Bool
  | .tuple es =>
    match T.ref with
    | .none => !es.isEmpty && compilesPack es
    | _ => true
  | .pair q1 a q2 b =>
    match T.ref with
    | .none => compiles q1 a && compiles q2 b
    | _ => true
  | .klass _ _ =>
    match T.ref with
    | .none => false
    | _ => true
  | _ => true
/-- The same for every element of a container. -/
def compilesPack : List (Qual × Obj) → Bool
  | [] => true
  | (E, o) :: rest => compiles E o && compilesPack rest
end

/-- The concatenation `concat(r1, ..., rn)` of the results for the children of a
container, defined when each of them is. -/
def concatAll {α : Type} : List (Option (List α)) → Option (List α)
  | [] => some []
  | r :: rs => r.bind fun a => (concatAll rs).map fun b => a ++ b

/-- The number of elements of a result; `0` when there is none. -/
def count {α : Type} (r : Option (List α)) : Nat :=
  match r with
  | some out => out.length
  | none => 0

/-- The wrapper type that the const-propagation rule gives a declared type below a const
container. -/
def effective (constPath : Bool) (T : Qual) : Qual :=
  if constPath then detail.AddConst T else T

/-- The wrapper that stands for a leaf in the flat sequence. -/
def Leaf.wrap (l : Leaf) : detail.RefTo :=
  ⟨effective l.constPath l.declared, l.obj⟩

/-! ## The objects of the compile-time test -/

namespace test

/-- A non-const, non-reference declared type. -/
def plain : Qual := ⟨false, .none⟩

/-- The object `test1`, a `std::tuple<int, std::tuple<int, int>>` holding `(1, (2, 3))`. -/
def test1 : Obj :=
  .tuple [(plain, .prim .int 100), (plain, .tuple [(plain, .prim .int 101), (plain, .prim .int 102)])]

/-- The object `test3`, a `std::tuple<std::tuple<int, char>, const int>` holding
`((10, 'c'), 25)`. -/
def test3 : Obj :=
  .tuple [(plain, .tuple [(plain, .prim .int 110), (plain, .prim .char 111)]),
    (⟨true, .none⟩, .prim .int 112)]

/-- The object `test7`, a `std::tuple<std::size_t, std::tuple<int&, const char&>>` whose
references are bound to the variables `i` (at 200) and `c` (at 201). -/
def test7 : Obj :=
  .tuple [(plain, .prim .size_t 120),
    (plain, .tuple [(⟨false, .lvalue⟩, .prim .int 200), (⟨true, .lvalue⟩, .prim .char 201)])]

/-- The object `test11`, a `std::tuple<std::size_t, std::pair<int&, const char&>>` bound
to the same `i` and `c`. -/
def test11 : Obj :=
  .tuple [(plain, .prim .size_t 130),
    (plain, .pair ⟨false, .lvalue⟩ (.prim .int 200) ⟨true, .lvalue⟩ (.prim .char 201))]

/-- The memory of the test: the values the objects above are initialised with (`'c'` is
99), `0` elsewhere. -/
def memory : Mem := fun a =>
  if a = 100 then 1 else if a = 101 then 2 else if a = 102 then 3
  else if a = 110 then 10 else if a = 111 then 99 else if a = 112 then 25
  else if a = 120 then 10 else if a = 130 then 10 else if a = 201 then 99
  else 0

end test

/-! ## Further objects -/

namespace examples

/-- A `std::tuple<int&&>` whose reference is bound to an `int` at 300. -/
def rvalueLeaf : Obj :=
  .tuple [(⟨false, .rvalue⟩, .prim .int 300)]

/-- A `std::tuple<int&>` bound to the same `int`. -/
def lvalueLeaf : Obj :=
  .tuple [(⟨false, .lvalue⟩, .prim .int 300)]

/-- A `std::tuple<int, const std::tuple<char, int&&>>`. -/
def constInner : Obj :=
  .tuple [(test.plain, .prim .int 310),
    (⟨true, .none⟩, .tuple [(test.plain, .prim .char 311), (⟨false, .rvalue⟩, .prim .int 300)])]

/-- A `std::tuple<>`. -/
def empty : Obj :=
  .tuple []

/-- A `std::tuple<int, std::tuple<>>`. -/
def emptyChild : Obj :=
  .tuple [(test.plain, .prim .int 330), (test.plain, .tuple [])]

/-- A `std::array<int, 3>`. -/
def array3 : Obj :=
  .array .int [320, 321, 322]

/-- A `std::tuple<char, std::array<int, 3>>`. -/
def withArray : Obj :=
  .tuple [(test.plain, .prim .char 323), (test.plain, array3)]

/-- A `std::tuple<int, std::tuple<int, char, int>>`: one leaf and one 3-field container. -/
def oneAndThree : Obj :=
  .tuple [(test.plain, .prim .int 340),
    (test.plain, .tuple [(test.plain, .prim .int 341), (test.plain, .prim .char 342),
      (test.plain, .prim .int 343)])]

/-- An `int` variable at 350. -/
def x : Obj :=
  .prim .int 350

end examples

/-! ## Overload resolution at the entry point -/

/-- The two declarations of `untie` in namespace `untup`: `untie(T& t)` and
`untie(auto&& t) = delete`. -/
inductive EntryOverload where
  | byReference
  | deleted
deriving DecidableEq, Repr

/-- Whether `untie(T& t)` is viable.  `T` is deduced as the type of the argument, so the
parameter is an lvalue reference to that type: it binds any lvalue, and an rvalue only
when the type is const. -/
def viableByReference (t : Arg) : Bool :=
  t.cat == .lvalue || t.isConst

/-- Overload resolution between `untie(T& t)` and `untie(auto&& t) = delete`.  The
deleted overload is viable for every argument.  For an rvalue it binds an rvalue
reference, which is the better conversion even where `const T&` could bind; for an
lvalue both parameters are the same lvalue reference and `T&` is the more specialised
template. -/
def untieOverload (t : Arg) : EntryOverload :=
  if viableByReference t then
    match t.cat with
    | .lvalue => .byReference
    | .rvalue => .deleted
  else .deleted

/-! ## Chains of `+` -/

namespace tuple_sum

/-- The unary left fold `(... + pack)` over a pack of tuples: `((t1 + t2) + t3) + ...`,
ill-formed over an empty pack. -/
def leftFold {α : Type} : List (List α) → Option (List α)
  | [] => none
  | t :: ts => some (ts.foldl add t)

/-- A way to group a chain `t1 + ... + tn` into binary sums. -/
inductive Grouping (α : Type) where
  | operand (t : List α)
  | plus (l r : Grouping α)

/-- The operands of a grouping, left to right. -/
def Grouping.operands {α : Type} : Grouping α → List (List α)
  | .operand t => [t]
  | .plus l r => l.operands ++ r.operands

/-- The tuple a grouping evaluates to. -/
def Grouping.value {α : Type} : Grouping α → List α
  | .operand t => t
  | .plus l r => add l.value r.value

end tuple_sum

namespace test

/-- The tuple `t1`, `std::tuple{ 10, 20 }`. -/
def t1 : List (Int ⊕ Char) :=
  [.inl 10, .inl 20]

/-- The tuple `t2`, `std::tuple{ 'c', 'd' }`. -/
def t2 : List (Int ⊕ Char) :=
  [.inr 'c', .inr 'd']

end test

namespace examples

/-- A `std::pair<int, char>`. -/
def pairRoot : Obj :=
  .pair test.plain (.prim .int 360) test.plain (.prim .char 361)

/-- A `std::tuple<int, std::tuple<int, int>&>` whose second element refers to a tuple
stored elsewhere. -/
def refToTuple : Obj :=
  .tuple [(test.plain, .prim .int 370),
    (⟨false, .lvalue⟩, .tuple [(test.plain, .prim .int 371), (test.plain, .prim .int 372)])]

/-- A `std::tuple<const std::tuple<int>>`. -/
def constSub : Obj :=
  .tuple [(⟨true, .none⟩, .tuple [(test.plain, .prim .int 380)])]

/-- A `std::vector<int>`. -/
def vec : Obj :=
  .klass "std::vector<int>" 390

/-- A `std::optional<char>`. -/
def opt : Obj :=
  .klass "std::optional<char>" 391

/-- A `std::tuple<int, std::optional<char>>`. -/
def withOptional : Obj :=
  .tuple [(test.plain, .prim .int 392), (test.plain, .klass "std::optional<char>" 393)]

end examples

/-! ## Overload resolution -/

theorem convertible_to_self (q : Qual) :
    std.convertible_to (std.add_lvalue_reference_t q) (std.add_lvalue_reference_t q) = true := by
  cases q with
  | mk c r => cases c <;> simp [std.convertible_to, std.add_lvalue_reference_t]

theorem is_tuple_element_of_some {c : Bool} {o : Obj} {N : Nat} {E : Qual}
    (h : std.tuple_element_t N o = some E) : p2165r2.is_tuple_element c o N = true := by
  simp [p2165r2.is_tuple_element, h, convertible_to_self]

theorem tuple_like_tuple (c : Bool) (es : List (Qual × Obj)) :
    p2165r2.tuple_like ⟨c, .none⟩ (.tuple es) = some true := by
  simp only [p2165r2.tuple_like, std.tuple_size_v, Option.some.injEq,
    List.all_eq_true, List.mem_range]
  intro N hN
  exact is_tuple_element_of_some (E := (es.get ⟨N, hN⟩).1)
    (by simp [std.tuple_element_t, List.getElem?_eq_getElem hN])

theorem tuple_like_pair (c : Bool) (q1 q2 : Qual) (a b : Obj) :
    p2165r2.tuple_like ⟨c, .none⟩ (.pair q1 a q2 b) = some true := by
  simp only [p2165r2.tuple_like, std.tuple_size_v, Option.some.injEq,
    List.all_eq_true, List.mem_range]
  intro N hN
  have h : N = 0 ∨ N = 1 := by omega
  rcases h with h | h <;> subst h
  · exact is_tuple_element_of_some (E := q1) (by simp [std.tuple_element_t])
  · exact is_tuple_element_of_some (E := q2) (by simp [std.tuple_element_t])

theorem tuple_like_array (c : Bool) (e : Prim) (as : List Nat) :
    p2165r2.tuple_like ⟨c, .none⟩ (.array e as) = some true := by
  simp only [p2165r2.tuple_like, std.tuple_size_v, Option.some.injEq,
    List.all_eq_true, List.mem_range]
  intro N hN
  exact is_tuple_element_of_some (E := ⟨false, .none⟩) (by simp [std.tuple_element_t, hN])

theorem tuple_like_klass (c : Bool) (n : String) (a : Nat) :
    p2165r2.tuple_like ⟨c, .none⟩ (.klass n a) = none := by
  simp [p2165r2.tuple_like, std.tuple_size_v]

theorem tuple_like_reference (T : Qual) (o : Obj) (h : T.ref ≠ .none) :
    p2165r2.tuple_like T o = some false := by
  cases hr : T.ref with
  | none => exact absurd hr h
  | lvalue => simp [p2165r2.tuple_like, hr]
  | rvalue => simp [p2165r2.tuple_like, hr]

theorem overload_tuple (c : Bool) (es : List (Qual × Obj)) :
    detail.overload ⟨c, .none⟩ (.tuple es) = if c then .constContainer else .container := by
  simp [detail.overload, detail.deducesTup, tuple_like_tuple]

theorem overload_pair (c : Bool) (q1 q2 : Qual) (a b : Obj) :
    detail.overload ⟨c, .none⟩ (.pair q1 a q2 b) =
      if c then .constContainer else .container := by
  simp [detail.overload, detail.deducesTup, tuple_like_pair]

theorem overload_reference (T : Qual) (o : Obj) (h : T.ref ≠ .none) :
    detail.overload T o = .leaf := by
  cases o <;> simp [detail.overload, detail.deducesTup, h]

theorem overload_prim (T : Qual) (n : Prim) (a : Nat) :
    detail.overload T (.prim n a) = .leaf := by
  simp [detail.overload, detail.deducesTup]

theorem overload_array (T : Qual) (e : Prim) (as : List Nat) :
    detail.overload T (.array e as) = .leaf := by
  simp [detail.overload, detail.deducesTup]

theorem overload_klass (c : Bool) (n : String) (a : Nat) :
    detail.overload ⟨c, .none⟩ (.klass n a) = .illFormed := by
  simp [detail.overload, detail.deducesTup, tuple_like_klass]

theorem untie_of_leaf (T : Qual) (o : Obj) (h : detail.overload T o = .leaf) :
    detail.untie T o = some [⟨T, o⟩] := by
  cases o <;> simp [detail.untie, h]

theorem untie_of_illFormed (T : Qual) (o : Obj) (h : detail.overload T o = .illFormed) :
    detail.untie T o = none := by
  cases o with
  | prim n a => rw [overload_prim] at h; cases h
  | array e as => rw [overload_array] at h; cases h
  | klass n a => simp [detail.untie, h]
  | tuple es => simp [detail.untie, h]
  | pair q1 a q2 b => simp [detail.untie, h]

/-! ## The recursion -/

theorem untie_tuple (c : Bool) (es : List (Qual × Obj)) :
    detail.untie ⟨c, .none⟩ (.tuple es) = detail.leftFold (detail.untiePack c es) := by
  cases c <;> simp [detail.untie, overload_tuple]

theorem untie_pair (c : Bool) (q1 q2 : Qual) (a b : Obj) :
    detail.untie ⟨c, .none⟩ (.pair q1 a q2 b) =
      detail.leftFold (detail.untiePack c [(q1, a), (q2, b)]) := by
  cases c <;> simp [detail.untie, detail.untiePack, overload_pair]

theorem foldl_add_some (rest : List (List detail.RefTo)) (acc : List detail.RefTo) :
    (rest.map some).foldl
        (fun acc x => acc.bind fun a => x.bind fun b => some (tuple_sum.add a b)) (some acc)
      = some (acc ++ rest.flatten) := by
  induction rest generalizing acc with
  | nil => simp
  | cons r rest ih =>
    simp only [List.map_cons, List.foldl_cons, Option.some_bind, List.flatten_cons]
    rw [ih]; simp [tuple_sum.add]

theorem leftFold_some (l : List (List detail.RefTo)) (h : l ≠ []) :
    detail.leftFold (l.map some) = some l.flatten := by
  cases l with
  | nil => exact absurd rfl h
  | cons r rest => simp [detail.leftFold, foldl_add_some]

theorem untiePack_eq_map (b : Bool) (es : List (Qual × Obj)) :
    detail.untiePack b es
      = es.map fun e => detail.untie (if b then detail.AddConst e.1 else e.1) e.2 := by
  induction es with
  | nil => simp [detail.untiePack]
  | cons e rest ih => obtain ⟨E, o⟩ := e; simp [detail.untiePack, ih]

theorem leavesPack_eq_join (b : Bool) (es : List (Qual × Obj)) :
    leavesPack b es = (es.map fun e => leaves b e.1 e.2).flatten := by
  induction es with
  | nil => simp [leavesPack]
  | cons e rest ih => obtain ⟨E, o⟩ := e; simp [leavesPack, ih]

theorem effective_none (c k : Bool) :
    effective c ⟨k, .none⟩ = ⟨c || k, .none⟩ := by
  cases c <;> simp [effective, detail.AddConst, std.add_const_t]

theorem effective_ref (c : Bool) (T : Qual) : (effective c T).ref = T.ref := by
  obtain ⟨k, r⟩ := T
  cases c <;> cases r <;> simp [effective, detail.AddConst, std.add_const_t]

theorem AddConst_ref (T : Qual) : (detail.AddConst T).ref = T.ref := by
  obtain ⟨k, r⟩ := T
  cases r <;> simp [detail.AddConst, std.add_const_t]

theorem compiles_of_ref (T T' : Qual) (o : Obj) (h : T.ref = T'.ref) :
    compiles T o = compiles T' o := by
  cases o <;> simp [compiles, h]

theorem foldl_add_isSome (ps : List (Option (List detail.RefTo)))
    (p : Option (List detail.RefTo)) :
    (ps.foldl (fun acc x => acc.bind fun a => x.bind fun b => some (tuple_sum.add a b))
        p).isSome = (p.isSome && ps.all Option.isSome) := by
  induction ps generalizing p with
  | nil => simp
  | cons q qs ih =>
    rw [List.foldl_cons, ih]
    cases p <;> cases q <;> simp

theorem leftFold_isSome (l : List (Option (List detail.RefTo))) :
    (detail.leftFold l).isSome = (!l.isEmpty && l.all Option.isSome) := by
  cases l with
  | nil => rfl
  | cons p ps => simp [detail.leftFold, foldl_add_isSome]

mutual
theorem untie_eq_leaves (c : Bool) (T : Qual) : ∀ (o : Obj), compiles T o = true →
    detail.untie (effective c T) o = some ((leaves c T o).map Leaf.wrap)
  | .prim n a, _ => by
    rw [untie_of_leaf _ _ (overload_prim _ _ _)]; simp [leaves, Leaf.wrap]
  | .klass n a, h => by
    have hr : T.ref ≠ .none := by
      intro hr
      simp [compiles, hr] at h
    rw [untie_of_leaf _ _ (overload_reference _ _ (by rw [effective_ref]; exact hr))]
    simp [leaves, Leaf.wrap]
  | .array e as, _ => by
    rw [untie_of_leaf _ _ (overload_array _ _ _)]; simp [leaves, Leaf.wrap]
  | .tuple es, h => by
    obtain ⟨k, r⟩ := T
    cases r with
    | none =>
      simp only [compiles, Bool.and_eq_true, Bool.not_eq_true', List.isEmpty_eq_false] at h
      have hp := untiePack_eq_leaves (c || k) es h.2
      rw [effective_none, untie_tuple, hp, leftFold_some _ (by simpa using h.1)]
      simp only [leaves, leavesPack_eq_join, List.map_flatten, List.map_map]
      rfl
    | lvalue =>
      rw [untie_of_leaf _ _ (overload_reference _ _ (by rw [effective_ref]; simp))]
      simp [leaves, Leaf.wrap]
    | rvalue =>
      rw [untie_of_leaf _ _ (overload_reference _ _ (by rw [effective_ref]; simp))]
      simp [leaves, Leaf.wrap]
  | .pair q1 a q2 b, h => by
    obtain ⟨k, r⟩ := T
    cases r with
    | none =>
      simp only [compiles, Bool.and_eq_true] at h
      have h1 := untie_eq_leaves (c || k) q1 a h.1
      have h2 := untie_eq_leaves (c || k) q2 b h.2
      simp only [effective] at h1 h2
      rw [effective_none, untie_pair]
      simp only [detail.untiePack, h1, h2, detail.leftFold, List.foldl_cons, List.foldl_nil,
        Option.some_bind, tuple_sum.add, leaves, List.map_append]
    | lvalue =>
      rw [untie_of_leaf _ _ (overload_reference _ _ (by rw [effective_ref]; simp))]
      simp [leaves, Leaf.wrap]
    | rvalue =>
      rw [untie_of_leaf _ _ (overload_reference _ _ (by rw [effective_ref]; simp))]
      simp [leaves, Leaf.wrap]
theorem untiePack_eq_leaves (b : Bool) : ∀ (es : List (Qual × Obj)), compilesPack es = true →
    detail.untiePack b es = (es.map fun e => (leaves b e.1 e.2).map Leaf.wrap).map some
  | [], _ => by simp [detail.untiePack]
  | (E, o) :: rest, h => by
    simp only [compilesPack, Bool.and_eq_true] at h
    have h1 := untie_eq_leaves b E o h.1
    have h2 := untiePack_eq_leaves b rest h.2
    simp only [effective] at h1
    simp [detail.untiePack, h1, h2]
end

mutual
theorem untie_isSome (T : Qual) : ∀ (o : Obj), (detail.untie T o).isSome = compiles T o
  | .prim n a => by
    rw [untie_of_leaf _ _ (overload_prim _ _ _)]; simp [compiles]
  | .array e as => by
    rw [untie_of_leaf _ _ (overload_array _ _ _)]; simp [compiles]
  | .klass n a => by
    obtain ⟨k, r⟩ := T
    cases r with
    | none => rw [untie_of_illFormed _ _ (overload_klass _ _ _)]; simp [compiles]
    | lvalue => rw [untie_of_leaf _ _ (overload_reference _ _ (by simp))]; simp [compiles]
    | rvalue => rw [untie_of_leaf _ _ (overload_reference _ _ (by simp))]; simp [compiles]
  | .tuple es => by
    obtain ⟨k, r⟩ := T
    cases r with
    | none =>
      rw [untie_tuple, leftFold_isSome, untiePack_isSome k es]
      cases es <;> simp [compiles, detail.untiePack]
    | lvalue => rw [untie_of_leaf _ _ (overload_reference _ _ (by simp))]; simp [compiles]
    | rvalue => rw [untie_of_leaf _ _ (overload_reference _ _ (by simp))]; simp [compiles]
  | .pair q1 a q2 b => by
    obtain ⟨k, r⟩ := T
    cases r with
    | none =>
      have h1 := untie_isSome (if k then detail.AddConst q1 else q1) a
      have h2 := untie_isSome (if k then detail.AddConst q2 else q2) b
      rw [compiles_of_ref _ q1 a (by cases k <;> simp [AddConst_ref])] at h1
      rw [compiles_of_ref _ q2 b (by cases k <;> simp [AddConst_ref])] at h2
      rw [untie_pair, leftFold_isSome]
      simp [detail.untiePack, h1, h2, compiles]
    | lvalue => rw [untie_of_leaf _ _ (overload_reference _ _ (by simp))]; simp [compiles]
    | rvalue => rw [untie_of_leaf _ _ (overload_reference _ _ (by simp))]; simp [compiles]
theorem untiePack_isSome (b : Bool) : ∀ (es : List (Qual × Obj)),
    (detail.untiePack b es).all Option.isSome = compilesPack es
  | [] => by simp [detail.untiePack, compilesPack]
  | (E, o) :: rest => by
    have h1 := untie_isSome (if b then detail.AddConst E else E) o
    rw [compiles_of_ref _ E o (by cases b <;> simp [AddConst_ref])] at h1
    have h2 := untiePack_isSome b rest
    simp [detail.untiePack, compilesPack, h1, h2]
end

theorem foldl_add_eq_concatAll (ps : List (Option (List detail.RefTo)))
    (p : Option (List detail.RefTo)) :
    ps.foldl (fun acc x => acc.bind fun a => x.bind fun b => some (tuple_sum.add a b)) p
      = p.bind fun a => (concatAll ps).map fun b => a ++ b := by
  induction ps generalizing p with
  | nil => cases p <;> simp [concatAll]
  | cons q qs ih =>
    rw [List.foldl_cons, ih]
    cases p <;> cases q <;> cases h : concatAll qs <;>
      simp [concatAll, h, tuple_sum.add, List.append_assoc]

theorem leftFold_eq_concatAll (l : List (Option (List detail.RefTo))) (h : l ≠ []) :
    detail.leftFold l = concatAll l := by
  cases l with
  | nil => exact absurd rfl h
  | cons p ps => simp [detail.leftFold, foldl_add_eq_concatAll, concatAll]

theorem container_cases (T : Qual) (o : Obj) (hc : detail.descends T o = true) :
    T.ref = .none ∧
      ((∃ es, o = .tuple es) ∨ ∃ q1 a q2 b, o = .pair q1 a q2 b) := by
  have hr : T.ref = .none := by
    by_contra h
    simp [detail.descends, overload_reference T o h] at hc
  refine ⟨hr, ?_⟩
  obtain ⟨k, r⟩ := T
  simp only at hr
  subst hr
  cases o with
  | prim n a => simp [detail.descends, overload_prim] at hc
  | klass n a => simp [detail.descends, overload_klass] at hc
  | array e as => simp [detail.descends, overload_array] at hc
  | tuple es => exact Or.inl ⟨es, rfl⟩
  | pair q1 a q2 b => exact Or.inr ⟨q1, a, q2, b, rfl⟩

theorem untie_container (T : Qual) (o : Obj) (hc : detail.descends T o = true) :
    detail.untie T o = detail.leftFold (detail.untiePack T.isConst o.elements) := by
  obtain ⟨hr, h⟩ := container_cases T o hc
  obtain ⟨k, r⟩ := T
  simp only at hr
  subst hr
  rcases h with ⟨es, rfl⟩ | ⟨q1, a, q2, b, rfl⟩
  · exact untie_tuple k es
  · exact untie_pair k q1 q2 a b

theorem compiles_container (T : Qual) (o : Obj) (hc : detail.descends T o = true)
    (hw : compiles T o = true) :
    o.elements ≠ [] ∧ compilesPack o.elements = true := by
  obtain ⟨hr, h⟩ := container_cases T o hc
  obtain ⟨k, r⟩ := T
  simp only at hr
  subst hr
  rcases h with ⟨es, rfl⟩ | ⟨q1, a, q2, b, rfl⟩
  · simpa [compiles, Obj.elements] using hw
  · simpa [compiles, compilesPack, Obj.elements] using hw

theorem untie_lvalue (t : Arg) (hl : t.cat = .lvalue)
    (hw : compiles ⟨t.isConst, .none⟩ t.obj = true) :
    untie t = some ((leaves false ⟨t.isConst, .none⟩ t.obj).map fun l =>
      .reference (std.add_lvalue_reference_t l.wrap.T) l.obj) := by
  have h := untie_eq_leaves false ⟨t.isConst, .none⟩ t.obj hw
  simp only [effective, Bool.false_eq_true, if_false] at h
  simp only [untie, hl, h, Option.map_some', List.map_map]
  rfl

/-! ## Order preservation -/

/-- C1 as stated fails at a `std::tuple<char, std::array<int, 3>>`.  The array is a
positional container with three children, so the structure has four leaves in depth-first
order; `untie` returns two elements, the second being the whole array, and
`detail::untie` of the array is not the concatenation of `detail::untie` of its
children. -/
theorem untie_array_not_flattened :
    specLeaves test.plain examples.withArray
        = [.prim .char 323, .prim .int 320, .prim .int 321, .prim .int 322]
      ∧ (untie ⟨.lvalue, false, examples.withArray⟩).map (List.map Element.leaf)
        = some [.prim .char 323, examples.array3]
      ∧ detail.untie test.plain examples.array3 = some [⟨test.plain, examples.array3⟩]
      ∧ concatAll (examples.array3.children.map fun e => detail.untie e.1 e.2)
        = some [⟨test.plain, .prim .int 320⟩, ⟨test.plain, .prim .int 321⟩,
            ⟨test.plain, .prim .int 322⟩] :=
  ⟨rfl, rfl, rfl, rfl⟩

/-- C1, amended: for a container that `detail::untie` enters (a `std::tuple` or
`std::pair` held by value) with at least one element, `detail::untie` is the
concatenation, in index order, of `detail::untie` of its elements; and for an lvalue `t`
that `untie` compiles for, `untie(t)` refers, position by position, to the values at
which the recursion stops, in left-to-right depth-first order, a `std::array` being one
of them as a whole. -/
theorem untie_concat_children_in_order (T : Qual) (o : Obj) (t : Arg)
    (hc : detail.descends T o = true) (hn : o.elements ≠ [])
    (hl : t.cat = .lvalue) (hw : compiles ⟨t.isConst, .none⟩ t.obj = true) :
    detail.untie T o
        = concatAll (o.elements.map fun e =>
            detail.untie (if T.isConst then detail.AddConst e.1 else e.1) e.2)
      ∧ ∃ out, untie t = some out ∧
          out.map Element.leaf = (leaves false ⟨t.isConst, .none⟩ t.obj).map Leaf.obj := by
  constructor
  · rw [untie_container T o hc, untiePack_eq_map,
      leftFold_eq_concatAll _ (by simpa using hn)]
  · refine ⟨_, untie_lvalue t hl hw, ?_⟩
    simp [List.map_map, Function.comp_def, Element.leaf]

/-- C1, amended, at `test1`: `(1, (2, 3))` flattens to references that read `(1, 2, 3)`. -/
theorem untie_concat_children_in_order_witness :
    (detail.untie test.plain test.test1
        = concatAll (test.test1.elements.map fun e =>
            detail.untie (if test.plain.isConst then detail.AddConst e.1 else e.1) e.2)
      ∧ ∃ out, untie ⟨.lvalue, false, test.test1⟩ = some out ∧
          out.map Element.leaf = (leaves false ⟨false, .none⟩ test.test1).map Leaf.obj)
    ∧ (untie ⟨.lvalue, false, test.test1⟩).map (List.map (Element.read test.memory))
        = some [[1], [2], [3]] :=
  ⟨untie_concat_children_in_order test.plain test.test1 ⟨.lvalue, false, test.test1⟩
    (by decide) (List.cons_ne_nil _ _) rfl rfl, rfl⟩

/-! ## Const propagation -/

theorem effective_isConst (c : Bool) (T : Qual) :
    (effective c T).isConst = (T.isConst || (c && T.ref != .rvalue)) := by
  obtain ⟨k, r⟩ := T
  cases c <;> cases r <;> cases k <;> simp [effective, detail.AddConst, std.add_const_t]

/-- What the code does: an element of `untie`'s result is const exactly when its leaf is
declared const, or lies on a const path and is not declared as an rvalue reference. -/
theorem untie_const_rule (t : Arg) (hl : t.cat = .lvalue)
    (hw : compiles ⟨t.isConst, .none⟩ t.obj = true) :
    ∃ out, untie t = some out ∧
      ∀ (k : Nat) (l : Leaf), (leaves false ⟨t.isConst, .none⟩ t.obj)[k]? = some l →
        (out[k]?).map (fun e : Element => e.T.isConst)
          = some (l.declared.isConst || (l.constPath && l.declared.ref != RefKind.rvalue)) := by
  refine ⟨_, untie_lvalue t hl hw, fun k l hk => ?_⟩
  simp [hk, Element.T, std.add_lvalue_reference_t, Leaf.wrap, effective_isConst]

/-- C2 is broken by an rvalue-reference leaf: reached through a const root, a leaf
declared `int&&` comes out of `untie` as `int&`, not `const int&`, because `AddConst`
has a specialisation for `T&` only and `std::add_const_t<int&&>` is `int&&`; a leaf
declared `int&` at the same place comes out as `const int&`. -/
theorem untie_const_root_rvalue_reference :
    untie ⟨.lvalue, true, examples.rvalueLeaf⟩
        = some [.reference ⟨false, .lvalue⟩ (.prim .int 300)]
      ∧ untie ⟨.lvalue, true, examples.lvalueLeaf⟩
        = some [.reference ⟨true, .lvalue⟩ (.prim .int 300)]
      ∧ detail.AddConst ⟨false, .rvalue⟩ = ⟨false, .rvalue⟩ :=
  ⟨rfl, rfl, rfl⟩

/-- C3 is broken by the same rvalue-reference leaf below a const sub-container: in a
`std::tuple<int, const std::tuple<char, int&&>>` the third leaf is declared non-const
and lies on a const path, so the rule makes it const, but `untie` gives
`(int&, const char&, int&)`.  At `test3` the rule and `untie` agree on
`(int&, char&, const int&)`. -/
theorem untie_const_subcontainer_rvalue_reference :
    (leaves false ⟨false, .none⟩ examples.constInner).map
        (fun l => (l.declared.isConst, l.constPath))
        = [(false, false), (false, true), (false, true)]
      ∧ (untie ⟨.lvalue, false, examples.constInner⟩).map (List.map fun e => e.T.isConst)
        = some [false, true, false]
      ∧ (untie ⟨.lvalue, false, test.test3⟩).map (List.map fun e => e.T.isConst)
        = some [false, false, true] :=
  ⟨rfl, rfl, rfl⟩

/-! ## Copies and aliases -/

theorem initElement_wrap (mem : Mem) (l : Leaf) (hr : l.declared.ref ≠ .rvalue) :
    initElement mem l.wrap
      = some (if l.declared.ref = .none then .value l.wrap.T l.obj (l.obj.load mem)
          else .reference l.wrap.T l.obj) := by
  have h : (effective l.constPath l.declared).ref = l.declared.ref :=
    effective_ref l.constPath l.declared
  simp only [initElement, Leaf.wrap, h]
  cases hd : l.declared.ref with
  | none => simp
  | lvalue => simp
  | rvalue => exact absurd hd hr

theorem initElements_wrap (mem : Mem) (ls : List Leaf)
    (hr : ∀ l ∈ ls, l.declared.ref ≠ .rvalue) :
    initElements mem (ls.map Leaf.wrap)
      = some (ls.map fun l =>
          if l.declared.ref = .none then .value l.wrap.T l.obj (l.obj.load mem)
          else .reference l.wrap.T l.obj) := by
  induction ls with
  | nil => rfl
  | cons l ls ih =>
    have h1 := initElement_wrap mem l (hr l (List.mem_cons_self _ _))
    have h2 := ih fun l' hl' => hr l' (List.mem_cons_of_mem _ hl')
    simp only [List.map_cons, initElements, h1, h2, Option.some_bind, Option.map_some']

theorem initElements_isSome (mem : Mem) (rs : List detail.RefTo) :
    (initElements mem rs).isSome = rs.all fun r => r.T.ref != .rvalue := by
  induction rs with
  | nil => rfl
  | cons r rs ih =>
    have h1 : (initElement mem r).isSome = (r.T.ref != .rvalue) := by
      unfold initElement
      cases r.T.ref <;> rfl
    cases hr : initElement mem r with
    | none =>
      rw [hr] at h1
      simp only [initElements, hr, Option.none_bind, List.all_cons, ← h1]
      rfl
    | some e =>
      rw [hr] at h1
      cases hrs : initElements mem rs with
      | none =>
        rw [hrs] at ih
        simp only [initElements, hr, hrs, Option.some_bind, Option.map_none', List.all_cons,
          ← h1, ← ih]
        rfl
      | some es =>
        rw [hrs] at ih
        simp only [initElements, hr, hrs, Option.some_bind, Option.map_some', List.all_cons,
          ← h1, ← ih]
        rfl

theorem untup_tuple_root (mem : Mem) (arg : Arg) (es : List (Qual × Obj))
    (ht : arg.obj = .tuple es) (hw : compiles ⟨false, .none⟩ arg.obj = true)
    (hr : ∀ l ∈ leaves false ⟨false, .none⟩ arg.obj, l.declared.ref ≠ .rvalue) :
    untup mem arg = some ((leaves false ⟨false, .none⟩ arg.obj).map fun l =>
      if l.declared.ref = .none then .value l.wrap.T l.obj (l.obj.load mem)
      else .reference l.wrap.T l.obj) := by
  have hu := untie_eq_leaves false ⟨false, .none⟩ arg.obj hw
  simp only [effective, Bool.false_eq_true, if_false] at hu
  have hi := initElements_wrap mem _ hr
  simp only [untup, ht, bindConstRef, const_cast]
  rw [ht] at hu hi
  rw [hu, Option.some_bind]
  exact hi

/-- What `untup` returns where it compiles (no class-template leaf by value, no empty
`std::tuple` entered, no leaf declared as an rvalue reference): one element per leaf, in
order.  Where the leaf is declared as an object type the element is a value holding the
leaf's value at the time of the call: it reads the same whatever the memory becomes
later, and assigning to it leaves the memory as it is.  Where the leaf is declared as an
lvalue reference the element is that reference: it reads what the memory holds, and
assigning through it stores into the leaf's cells. -/
theorem untup_copy_or_alias (mem : Mem) (tup : Arg)
    (es : List (Qual × Obj)) (ht : tup.obj = .tuple es)
    (hw : compiles ⟨false, .none⟩ tup.obj = true)
    (hr : ∀ l ∈ leaves false ⟨false, .none⟩ tup.obj, l.declared.ref ≠ .rvalue) :
    ∃ res, untup mem tup = some res
      ∧ res.map Element.leaf = (leaves false ⟨false, .none⟩ tup.obj).map Leaf.obj
      ∧ ∀ k l, (leaves false ⟨false, .none⟩ tup.obj)[k]? = some l →
          (l.declared.ref = .none →
            res[k]? = some (.value l.wrap.T l.obj (l.obj.load mem))
            ∧ (∀ mem', (res[k]?).map (Element.read mem') = some (l.obj.load mem))
            ∧ (∀ v, l.wrap.T.isConst = false →
                assign mem res k v = some (mem, res.set k (.value l.wrap.T l.obj v))))
          ∧ (l.declared.ref = .lvalue →
            res[k]? = some (.reference l.wrap.T l.obj)
            ∧ (∀ mem', (res[k]?).map (Element.read mem') = some (l.obj.load mem'))
            ∧ (∀ v, l.wrap.T.isConst = false →
                assign mem res k v = some (store mem l.obj.cells v, res))) := by
  have hu := untie_eq_leaves false ⟨false, .none⟩ tup.obj hw
  simp only [effective, Bool.false_eq_true, if_false] at hu
  have hi := initElements_wrap mem _ hr
  refine ⟨(leaves false ⟨false, .none⟩ tup.obj).map fun l =>
      if l.declared.ref = .none then .value l.wrap.T l.obj (l.obj.load mem)
      else .reference l.wrap.T l.obj, ?_, ?_, ?_⟩
  · simp only [untup, ht, bindConstRef, const_cast]
    rw [ht] at hu hi
    rw [hu, Option.some_bind]
    exact hi
  · rw [List.map_map]
    apply List.map_congr_left
    intro l _
    by_cases h : l.declared.ref = .none <;> simp [h, Element.leaf]
  · intro k l hk
    have hget : ∀ f : Leaf → Element,
        ((leaves false ⟨false, .none⟩ tup.obj).map f)[k]? = some (f l) := by
      intro f; simp [hk]
    constructor
    · intro hn
      refine ⟨by simp [hget, hn], fun mem' => by simp [hget, hn, Element.read], fun v hc => ?_⟩
      simp [assign, hget, hn, hc]
    · intro hlv
      have hn : ¬ l.declared.ref = .none := by simp [hlv]
      refine ⟨by simp [hget, hn], fun mem' => by simp [hget, hn, Element.read], fun v hc => ?_⟩
      simp [assign, hget, hn, hc]

/-- C4 fails on the code at a `std::tuple<int&&>`: the leaf has a reference declared type,
`untie` returns `(int&)`, but `untup` has no result, because the result element of type
`int&&` cannot be initialised from the lvalue `refs.ref.get()`.  At a
`std::tuple<int&>` bound to the same `int`, and at `test7`, `untup` returns the aliases
and the copy that the claim describes. -/
theorem untup_rvalue_reference_leaf_ill_formed :
    untup test.memory ⟨.lvalue, false, examples.rvalueLeaf⟩ = none
      ∧ untie ⟨.lvalue, false, examples.rvalueLeaf⟩
        = some [.reference ⟨false, .lvalue⟩ (.prim .int 300)]
      ∧ initElement test.memory ⟨⟨false, .rvalue⟩, .prim .int 300⟩ = none
      ∧ untup test.memory ⟨.lvalue, false, examples.lvalueLeaf⟩
        = some [.reference ⟨false, .lvalue⟩ (.prim .int 300)]
      ∧ untup test.memory ⟨.lvalue, false, test.test7⟩
        = some [.value ⟨false, .none⟩ (.prim .size_t 120) [10],
            .reference ⟨false, .lvalue⟩ (.prim .int 200),
            .reference ⟨true, .lvalue⟩ (.prim .char 201)] :=
  ⟨rfl, rfl, rfl, rfl, rfl⟩

/-! ## Memory -/

/-- C6: `untup` gives the same result, element types and values, for two accesses to the
same object, whatever their constness and value category: the parameter is a
`const std::tuple<Elements...>&` and the root is wrapped as a non-const
`std::tuple<Elements...>`. -/
theorem untup_ignores_root_const (mem : Mem) (a b : Arg) (h : a.obj = b.obj) :
    untup mem a = untup mem b := by
  simp only [untup, bindConstRef, const_cast, h]

/-- C6 at `test3`: `untup` of `((int, char), const int)` is `(int, char, const int)` for
the object and for a const reference to it. -/
theorem untup_ignores_root_const_witness :
    untup test.memory ⟨.lvalue, false, test.test3⟩ = untup test.memory ⟨.lvalue, true, test.test3⟩
      ∧ untup test.memory ⟨.lvalue, true, test.test3⟩
        = some [.value ⟨false, .none⟩ (.prim .int 110) [10],
            .value ⟨false, .none⟩ (.prim .char 111) [99],
            .value ⟨true, .none⟩ (.prim .int 112) [25]] :=
  ⟨untup_ignores_root_const test.memory ⟨.lvalue, false, test.test3⟩
    ⟨.lvalue, true, test.test3⟩ rfl, rfl⟩

/-! ## Arity -/

/-- C7 as stated fails at a `std::array<int, 3>`: it is a positional container
(`tuple_like` holds) with three children, each of which flattens to one element, yet it
flattens to one element, not three. -/
theorem untie_count_array :
    p2165r2.tuple_like test.plain examples.array3 = some true
      ∧ examples.array3.children.length = 3
      ∧ (examples.array3.children.map fun e => count (detail.untie e.1 e.2)).sum = 3
      ∧ count (detail.untie test.plain examples.array3) = 1 :=
  ⟨rfl, rfl, rfl, rfl⟩

/-- C7, amended: where `detail::untie` compiles, it returns a sequence whose number of
elements is, for a container that it enters (a `std::tuple` or `std::pair` held by
value), the sum over the elements of the container of the number of elements of
`detail::untie` of the element, and 1 for every other value, a `std::array` included. -/
theorem untie_count (T : Qual) (o : Obj) (hw : compiles T o = true) :
    ∃ out, detail.untie T o = some out ∧
      out.length = if detail.descends T o = true then
          (o.elements.map fun e =>
            count (detail.untie (if T.isConst then detail.AddConst e.1 else e.1) e.2)).sum
        else 1 := by
  by_cases hc : detail.descends T o = true
  · obtain ⟨hn, hp⟩ := compiles_container T o hc hw
    have h := untiePack_eq_leaves T.isConst o.elements hp
    have hu : detail.untie T o = some ((o.elements.map fun e =>
        (leaves T.isConst e.1 e.2).map Leaf.wrap).flatten) := by
      rw [untie_container T o hc, h]
      exact leftFold_some _ (by simpa using hn)
    refine ⟨_, hu, ?_⟩
    have hm := untiePack_eq_map T.isConst o.elements
    rw [h] at hm
    have hcount : (o.elements.map fun e =>
        count (detail.untie (if T.isConst then detail.AddConst e.1 else e.1) e.2))
          = (o.elements.map fun e => ((leaves T.isConst e.1 e.2).map Leaf.wrap).length) := by
      have := congrArg (List.map count) hm
      simpa [List.map_map, Function.comp_def, count] using this.symm
    rw [if_pos hc, hcount]
    simp [List.length_flatten, List.map_map, Function.comp_def]
  · have hs := untie_isSome T o
    rw [hw] at hs
    obtain ⟨out, ho⟩ := Option.isSome_iff_exists.1 hs
    refine ⟨out, ho, ?_⟩
    rw [if_neg hc]
    have hleaf : detail.overload T o = .leaf := by
      cases hov : detail.overload T o with
      | leaf => rfl
      | container => simp [detail.descends, hov] at hc
      | constContainer => simp [detail.descends, hov] at hc
      | illFormed => rw [untie_of_illFormed T o hov] at ho; cases ho
    rw [untie_of_leaf T o hleaf] at ho
    cases ho
    rfl

/-- C7, amended, at a `std::tuple<int, std::tuple<int, char, int>>`: 1 + 3 = 4 elements. -/
theorem untie_count_witness :
    (∃ out, detail.untie test.plain examples.oneAndThree = some out ∧
      out.length = if detail.descends test.plain examples.oneAndThree = true then
          (examples.oneAndThree.elements.map fun e =>
            count (detail.untie
              (if test.plain.isConst then detail.AddConst e.1 else e.1) e.2)).sum
        else 1)
    ∧ count (detail.untie test.plain examples.oneAndThree) = 4
    ∧ (examples.oneAndThree.elements.map fun e => count (detail.untie e.1 e.2)) = [1, 3] :=
  ⟨untie_count test.plain examples.oneAndThree rfl, rfl, rfl⟩

/-! ## Leaves and containers -/

/-- C8 fails on the code at a `std::vector<int>` and at a `std::optional<char>`: neither
is a positional container, but the type has the form `Tup<Elements...>`, so the
constraint of the container overloads is checked, and `std::tuple_size_v<T>` in
`tuple_like` is a hard error there: `untie` has no result.  For an `int` it returns the
one reference to the argument. -/
theorem untie_class_template_leaf_ill_formed :
    untie ⟨.lvalue, false, examples.vec⟩ = none
      ∧ untie ⟨.lvalue, true, examples.opt⟩ = none
      ∧ detail.deducesTup test.plain examples.vec = true
      ∧ p2165r2.tuple_like test.plain examples.vec = none
      ∧ detail.overload test.plain examples.vec = .illFormed
      ∧ untie ⟨.lvalue, false, examples.x⟩ = some [.reference ⟨false, .lvalue⟩ examples.x] :=
  ⟨rfl, rfl, rfl, rfl, rfl, rfl⟩

/-- C9 fails on the code: for a `std::tuple<>`, const or not, the container overload is
selected (`tuple_like` holds) and its unary fold `(... + pack)` over the empty pack is
ill-formed, so `untie` has no result; the same for a `std::tuple<int, std::tuple<>>`. -/
theorem untie_arity_zero_ill_formed :
    untie ⟨.lvalue, false, examples.empty⟩ = none
      ∧ untie ⟨.lvalue, true, examples.empty⟩ = none
      ∧ untie ⟨.lvalue, false, examples.emptyChild⟩ = none
      ∧ p2165r2.tuple_like ⟨false, .none⟩ examples.empty = some true
      ∧ detail.overload ⟨false, .none⟩ examples.empty = .container :=
  ⟨rfl, rfl, rfl, rfl, rfl⟩

theorem tuple_like_of_deducesTup (T : Qual) (o : Obj) (h : detail.deducesTup T o = true) :
    p2165r2.tuple_like T o = p2165r2.tuple_like ⟨false, .none⟩ o := by
  obtain ⟨k, r⟩ := T
  cases o with
  | prim n a => simp [detail.deducesTup] at h
  | array e as => simp [detail.deducesTup] at h
  | klass n a =>
    simp only [detail.deducesTup, beq_iff_eq] at h
    subst h
    rw [tuple_like_klass, tuple_like_klass]
  | tuple es =>
    simp only [detail.deducesTup, beq_iff_eq] at h
    subst h
    rw [tuple_like_tuple, tuple_like_tuple]
  | pair q1 a q2 b =>
    simp only [detail.deducesTup, beq_iff_eq] at h
    subst h
    rw [tuple_like_pair, tuple_like_pair]

theorem tuple_like_ne_some_false (T : Qual) (o : Obj) (h : detail.deducesTup T o = true) :
    p2165r2.tuple_like ⟨false, .none⟩ o ≠ some false := by
  cases o with
  | prim n a => simp [detail.deducesTup] at h
  | array e as => simp [detail.deducesTup] at h
  | klass n a => simp [tuple_like_klass]
  | tuple es => simp [tuple_like_tuple]
  | pair q1 a q2 b => simp [tuple_like_pair]

/-- C10 as stated fails at `std::array<int, 3>`: the type satisfies `tuple_like`, yet the
leaf overload is selected and the array is one element of the result. -/
theorem array_is_tuple_like_but_leaf :
    p2165r2.tuple_like ⟨false, .none⟩ examples.array3 = some true
      ∧ detail.overload ⟨false, .none⟩ examples.array3 = .leaf
      ∧ detail.untie ⟨false, .none⟩ examples.array3 = some [⟨⟨false, .none⟩, examples.array3⟩]
      ∧ untie ⟨.lvalue, false, examples.withArray⟩
        = some [.reference ⟨false, .lvalue⟩ (.prim .char 323),
            .reference ⟨false, .lvalue⟩ examples.array3] :=
  ⟨rfl, rfl, rfl, rfl⟩

/-- C10, amended: `detail::untie` treats a value as a leaf, returning the one-element
sequence of its wrapper, exactly when its type does not have the form `Tup<Elements...>`
of a class template with type-only parameters, or fails `tuple_like`; it enters the
value, folding `detail::untie` of the elements, exactly when the type has that form and
satisfies `tuple_like`. -/
theorem untie_descends_iff (T : Qual) (o : Obj) :
    (detail.overload T o = .leaf ↔
        detail.deducesTup T o = false ∨ p2165r2.tuple_like T o = some false)
      ∧ (detail.descends T o = true ↔
          detail.deducesTup T o = true ∧ p2165r2.tuple_like T o = some true)
      ∧ (detail.overload T o = .leaf → detail.untie T o = some [⟨T, o⟩])
      ∧ (detail.descends T o = true → detail.untie T o
          = detail.leftFold (o.elements.map fun e =>
              detail.untie (if T.isConst then detail.AddConst e.1 else e.1) e.2)) := by
  refine ⟨?_, ?_, untie_of_leaf T o, fun hc => ?_⟩
  · cases hd : detail.deducesTup T o with
    | false => simp [detail.overload, hd]
    | true =>
      have hne := tuple_like_ne_some_false T o hd
      rw [tuple_like_of_deducesTup T o hd]
      cases ht : p2165r2.tuple_like ⟨false, .none⟩ o with
      | none => simp [detail.overload, hd, ht]
      | some b =>
        cases b with
        | false => exact absurd ht hne
        | true => cases hk : T.isConst <;> simp [detail.overload, hd, ht, hk]
  · cases hd : detail.deducesTup T o with
    | false => simp [detail.descends, detail.overload, hd]
    | true =>
      rw [tuple_like_of_deducesTup T o hd]
      cases ht : p2165r2.tuple_like ⟨false, .none⟩ o with
      | none => simp [detail.descends, detail.overload, hd, ht]
      | some b =>
        cases b with
        | false => simp [detail.descends, detail.overload, hd, ht]
        | true => cases hk : T.isConst <;> simp [detail.descends, detail.overload, hd, ht, hk]
  · rw [untie_container T o hc, untiePack_eq_map]

/-! ## The concatenation operator -/

/-- C11: `t1 + t2` has `arity(t1) + arity(t2)` elements: below `arity(t1)` they are the
elements of `t1` in their order, from there on the elements of `t2` in their order; and
`(10, 20) + ('c', 'd')` is `(10, 20, 'c', 'd')`. -/
theorem add_arity_and_order {α : Type} (a b : List α) :
    (tuple_sum.add a b).length = a.length + b.length
      ∧ (∀ i, i < a.length → (tuple_sum.add a b)[i]? = a[i]?)
      ∧ (∀ i, (tuple_sum.add a b)[a.length + i]? = b[i]?)
      ∧ tuple_sum.add test.t1 test.t2 = [.inl 10, .inl 20, .inr 'c', .inr 'd'] := by
  refine ⟨by simp [tuple_sum.add], fun i hi => ?_, fun i => ?_, rfl⟩
  · simp [tuple_sum.add, List.getElem?_append_left hi]
  · simp [tuple_sum.add, List.getElem?_append_right]

theorem foldl_add_eq_flatten {α : Type} (ts : List (List α)) (t : List α) :
    ts.foldl tuple_sum.add t = t ++ ts.flatten := by
  induction ts generalizing t with
  | nil => simp
  | cons u us ih => simp [ih, tuple_sum.add]

theorem grouping_value_eq_flatten {α : Type} (g : tuple_sum.Grouping α) :
    g.value = g.operands.flatten := by
  induction g with
  | operand t => simp [tuple_sum.Grouping.value, tuple_sum.Grouping.operands]
  | plus l r ihl ihr =>
    simp [tuple_sum.Grouping.value, tuple_sum.Grouping.operands, tuple_sum.add, ihl, ihr]

theorem grouping_operands_ne_nil {α : Type} (g : tuple_sum.Grouping α) : g.operands ≠ [] := by
  induction g with
  | operand t => simp [tuple_sum.Grouping.operands]
  | plus l r ihl _ => simp [tuple_sum.Grouping.operands, ihl]

/-- C12: `+` is associative, and therefore every grouping of a chain `t1 + ... + tn` into
binary sums has the value of the left fold `(... + pack)` over its operands. -/
theorem add_assoc_any_grouping {α : Type} (a b c : List α) (g : tuple_sum.Grouping α) :
    tuple_sum.add (tuple_sum.add a b) c = tuple_sum.add a (tuple_sum.add b c)
      ∧ tuple_sum.leftFold g.operands = some g.value := by
  refine ⟨by simp [tuple_sum.add], ?_⟩
  rw [grouping_value_eq_flatten]
  cases h : g.operands with
  | nil => exact absurd h (grouping_operands_ne_nil g)
  | cons t ts => simp [tuple_sum.leftFold, foldl_add_eq_flatten]

/-- C13: the empty tuple is a left and a right identity of `+`. -/
theorem add_empty_identity {α : Type} (a : List α) :
    tuple_sum.add [] a = a ∧ tuple_sum.add a [] = a := by
  simp [tuple_sum.add]

/-! ## What the entry points accept -/

theorem untup_isSome (mem : Mem) (arg : Arg) :
    (untup mem arg).isSome = true ↔
      (∃ es, arg.obj = .tuple es) ∧ compiles ⟨false, .none⟩ arg.obj = true
        ∧ ∀ l ∈ leaves false ⟨false, .none⟩ arg.obj, l.declared.ref ≠ .rvalue := by
  constructor
  · intro h
    cases ho : arg.obj with
    | prim n a => simp [untup, ho] at h
    | klass n a => simp [untup, ho] at h
    | array e as => simp [untup, ho] at h
    | pair q1 a q2 b => simp [untup, ho] at h
    | tuple es =>
      simp only [untup, ho, bindConstRef, const_cast] at h
      cases hu : detail.untie ⟨false, .none⟩ (.tuple es) with
      | none => simp [hu] at h
      | some refs =>
        have hc : compiles ⟨false, .none⟩ (.tuple es) = true := by
          rw [← untie_isSome, hu]; rfl
        have hl := untie_eq_leaves false ⟨false, .none⟩ (.tuple es) hc
        simp only [effective, Bool.false_eq_true, if_false] at hl
        rw [hu] at hl
        cases hl
        rw [hu, Option.some_bind, initElements_isSome] at h
        refine ⟨⟨es, rfl⟩, hc, fun l hl => ?_⟩
        have := (List.all_eq_true.1 h) l.wrap (List.mem_map_of_mem _ hl)
        have hr : l.wrap.T.ref = l.declared.ref := effective_ref l.constPath l.declared
        rw [hr] at this
        simpa using this
  · rintro ⟨⟨es, ht⟩, hw, hr⟩
    rw [untup_tuple_root mem arg es ht hw hr]
    rfl

/-- C14 as stated fails at a `std::pair<int, char>` root: `untie` accepts it and returns
`(int&, char&)`, `untup` has no overload for it; a pair below a `std::tuple` root
(`test11`) is flattened by `untup`. -/
theorem untup_rejects_pair_root :
    untie ⟨.lvalue, false, examples.pairRoot⟩
        = some [.reference ⟨false, .lvalue⟩ (.prim .int 360),
            .reference ⟨false, .lvalue⟩ (.prim .char 361)]
      ∧ untup test.memory ⟨.lvalue, false, examples.pairRoot⟩ = none
      ∧ untup test.memory ⟨.lvalue, true, examples.pairRoot⟩ = none
      ∧ untup test.memory ⟨.lvalue, false, test.test11⟩
        = some [.value ⟨false, .none⟩ (.prim .size_t 130) [10],
            .reference ⟨false, .lvalue⟩ (.prim .int 200),
            .reference ⟨true, .lvalue⟩ (.prim .char 201)] :=
  ⟨rfl, rfl, rfl, rfl⟩

/-- C14, amended: `untup` accepts as its root a `std::tuple` and nothing else.  It has a
result exactly when the root is a `std::tuple`, `detail::untie` compiles for it as a
non-const root, and no leaf is declared as an rvalue reference; the constness and value
category of the argument play no part.  For a root that is not a `std::tuple` it has no
result; where it has one, that is the flat value sequence, one element per leaf, holding
the values of the leaves. -/
theorem untup_accepts_tuple_root_only (mem : Mem) (arg : Arg) :
    ((untup mem arg).isSome = true ↔
        (∃ es, arg.obj = .tuple es) ∧ compiles ⟨false, .none⟩ arg.obj = true
          ∧ ∀ l ∈ leaves false ⟨false, .none⟩ arg.obj, l.declared.ref ≠ .rvalue)
      ∧ ((∀ es, arg.obj ≠ .tuple es) → untup mem arg = none)
      ∧ (∀ res, untup mem arg = some res →
          res.map Element.leaf = (leaves false ⟨false, .none⟩ arg.obj).map Leaf.obj
            ∧ res.map (Element.read mem)
              = (leaves false ⟨false, .none⟩ arg.obj).map fun l => l.obj.load mem) := by
  refine ⟨untup_isSome mem arg, fun h => ?_, fun res hres => ?_⟩
  · cases hs : untup mem arg with
    | none => rfl
    | some res =>
      obtain ⟨⟨es, ht⟩, _⟩ := (untup_isSome mem arg).1 (by rw [hs]; rfl)
      exact absurd ht (h es)
  · obtain ⟨⟨es, ht⟩, hw, hr⟩ := (untup_isSome mem arg).1 (by rw [hres]; rfl)
    have h := untup_tuple_root mem arg es ht hw hr
    rw [hres] at h
    cases h
    constructor
    · rw [List.map_map]
      apply List.map_congr_left
      intro l _
      by_cases h : l.declared.ref = .none <;> simp [h, Element.leaf]
    · rw [List.map_map]
      apply List.map_congr_left
      intro l _
      by_cases h : l.declared.ref = .none <;> simp [h, Element.read]

/-- What the value category decides: for every rvalue argument, const or not, overload
resolution selects the deleted `untie(auto&&)` and `untie` has no result; for every
lvalue argument, const or not, it selects `untie(T& t)`, whose result is that of
`detail::untie` on the wrapped argument with every wrapper turned into a reference, and
exists exactly when `detail::untie` compiles. -/
theorem untie_by_value_category (t : Arg) :
    (t.cat = .rvalue → untieOverload t = .deleted ∧ untie t = none)
      ∧ (t.cat = .lvalue → untieOverload t = .byReference
          ∧ untie t = (detail.untie ⟨t.isConst, .none⟩ t.obj).map
              (List.map fun r => .reference (std.add_lvalue_reference_t r.T) r.ref)
          ∧ (untie t).isSome = compiles ⟨t.isConst, .none⟩ t.obj) := by
  refine ⟨fun h => ?_, fun h => ⟨?_, ?_, ?_⟩⟩
  · constructor
    · cases hc : t.isConst <;> simp [untieOverload, viableByReference, h, hc]
    · simp [untie, h]
  · simp [untieOverload, viableByReference, h]
  · simp [untie, h]
  · rw [← untie_isSome]
    simp [untie, h]

/-- C15 fails on the code in its second half: for the lvalues `std::optional<char>` and
`const std::tuple<int, std::tuple<>>` overload resolution selects `untie(T& t)`, not the
deleted overload, and still the call does not compile, so the argument is not accepted.
The first half holds: every rvalue selects the deleted overload, also a const rvalue, for
which `untie(T& t)` is viable. -/
theorem untie_lvalue_not_accepted :
    untieOverload ⟨.lvalue, false, examples.opt⟩ = .byReference
      ∧ untie ⟨.lvalue, false, examples.opt⟩ = none
      ∧ untieOverload ⟨.lvalue, true, examples.emptyChild⟩ = .byReference
      ∧ untie ⟨.lvalue, true, examples.emptyChild⟩ = none
      ∧ untieOverload ⟨.rvalue, false, test.test1⟩ = .deleted
      ∧ viableByReference ⟨.rvalue, true, test.test1⟩ = true
      ∧ untieOverload ⟨.rvalue, true, test.test1⟩ = .deleted
      ∧ untie ⟨.rvalue, true, test.test1⟩ = none
      ∧ (untie ⟨.lvalue, true, test.test1⟩).isSome = true :=
  ⟨rfl, rfl, rfl, rfl, rfl, rfl, rfl, rfl, rfl⟩

/-! ## The two entry points share one flat sequence -/

/-- C16 as stated fails at a `std::tuple<const std::tuple<int>>`: the leaf is declared
`int`, and `untup` gives it the element type `const int`, `untie` the type
`const int&`. -/
theorem untup_const_subtuple_type :
    (leaves false ⟨false, .none⟩ examples.constSub).map (fun l => l.declared)
        = [⟨false, .none⟩]
      ∧ (untup test.memory ⟨.lvalue, false, examples.constSub⟩).map (List.map Element.T)
        = some [⟨true, .none⟩]
      ∧ (untie ⟨.lvalue, false, examples.constSub⟩).map (List.map Element.T)
        = some [⟨true, .lvalue⟩] :=
  ⟨rfl, rfl, rfl⟩

/-- C16, amended: for a non-const lvalue `std::tuple` that both entry points compile for,
`untup(t)` and `untie(t)` are built from the same flat wrapped sequence of
`detail::untie`: they have the same arity and read the same values position by position;
the element type of `untup` at a position is the wrapper's `Type`, which is the leaf's
declared type with `AddConst` applied when a const container lies above the leaf, and
that of `untie` is `Type&`. -/
theorem untup_untie_same_sequence (mem : Mem) (t : Arg) (es : List (Qual × Obj))
    (ht : t.obj = .tuple es) (hl : t.cat = .lvalue) (hc : t.isConst = false)
    (hw : compiles ⟨false, .none⟩ t.obj = true)
    (hr : ∀ l ∈ leaves false ⟨false, .none⟩ t.obj, l.declared.ref ≠ .rvalue) :
    ∃ refs res out, detail.untie ⟨false, .none⟩ t.obj = some refs
      ∧ untup mem t = some res ∧ untie t = some out
      ∧ res.length = out.length
      ∧ res.map (Element.read mem) = out.map (Element.read mem)
      ∧ res.map Element.T = refs.map (fun r => r.T)
      ∧ out.map Element.T = refs.map (fun r => std.add_lvalue_reference_t r.T)
      ∧ refs.map (fun r => r.T)
        = (leaves false ⟨false, .none⟩ t.obj).map
            (fun l => if l.constPath then detail.AddConst l.declared else l.declared) := by
  have hu := untie_eq_leaves false ⟨false, .none⟩ t.obj hw
  simp only [effective, Bool.false_eq_true, if_false] at hu
  have hw' : compiles ⟨t.isConst, .none⟩ t.obj = true := by rw [hc]; exact hw
  have ho := untie_lvalue t hl hw'
  rw [hc] at ho
  refine ⟨_, _, _, hu, untup_tuple_root mem t es ht hw hr, ho, by simp, ?_, ?_, ?_, ?_⟩
  · rw [List.map_map, List.map_map]
    apply List.map_congr_left
    intro l _
    by_cases h : l.declared.ref = .none <;> simp [h, Element.read]
  · rw [List.map_map, List.map_map]
    apply List.map_congr_left
    intro l _
    by_cases h : l.declared.ref = .none <;> simp [h, Element.T]
  · rw [List.map_map, List.map_map]
    apply List.map_congr_left
    intro l _
    simp [Element.T]
  · rw [List.map_map]
    apply List.map_congr_left
    intro l _
    simp [Leaf.wrap, effective]

/-- C16, amended, at `test7`: `res8` is `(size_t, int&, const char&)`, `res7` is
`(size_t&, int&, const char&)`, and both read `(10, 0, 'c')`. -/
theorem untup_untie_same_sequence_witness :
    (∃ refs res out, detail.untie ⟨false, .none⟩ test.test7 = some refs
      ∧ untup test.memory ⟨.lvalue, false, test.test7⟩ = some res
      ∧ untie ⟨.lvalue, false, test.test7⟩ = some out
      ∧ res.length = out.length
      ∧ res.map (Element.read test.memory) = out.map (Element.read test.memory))
    ∧ (untup test.memory ⟨.lvalue, false, test.test7⟩).map (List.map Element.T)
      = some [⟨false, .none⟩, ⟨false, .lvalue⟩, ⟨true, .lvalue⟩]
    ∧ (untie ⟨.lvalue, false, test.test7⟩).map (List.map Element.T)
      = some [⟨false, .lvalue⟩, ⟨false, .lvalue⟩, ⟨true, .lvalue⟩]
    ∧ (untie ⟨.lvalue, false, test.test7⟩).map (List.map (Element.read test.memory))
      = some [[10], [0], [99]] := by
  obtain ⟨refs, res, out, h1, h2, h3, h4, h5, _⟩ :=
    untup_untie_same_sequence test.memory ⟨.lvalue, false, test.test7⟩ _ rfl rfl rfl rfl
      (by decide)
  exact ⟨⟨refs, res, out, h1, h2, h3, h4, h5⟩, rfl, rfl, rfl⟩

/-! ## Reference elements -/

theorem untiePack_append (c : Bool) (pre post : List (Qual × Obj)) :
    detail.untiePack c (pre ++ post) = detail.untiePack c pre ++ detail.untiePack c post := by
  simp [untiePack_eq_map]

/-- C17: an element declared as a reference does not satisfy `tuple_like` and is one leaf,
whatever it refers to and whether or not the container is const: `detail::untie` of its
wrapper is the one-element sequence of that wrapper, which refers to the whole referent,
and this is what the element contributes to the fold of its container. -/
theorem reference_element_is_one_leaf (c : Bool) (E : Qual) (o : Obj)
    (pre post : List (Qual × Obj)) (h : E.ref ≠ .none) :
    p2165r2.tuple_like E o = some false
      ∧ detail.untie (if c then detail.AddConst E else E) o
        = some [⟨if c then detail.AddConst E else E, o⟩]
      ∧ detail.untie ⟨c, .none⟩ (.tuple (pre ++ (E, o) :: post))
        = detail.leftFold (detail.untiePack c pre
            ++ some [⟨if c then detail.AddConst E else E, o⟩] :: detail.untiePack c post) := by
  have hE : (if c then detail.AddConst E else E).ref ≠ .none := by
    cases c <;> simp [AddConst_ref, h]
  have hu := untie_of_leaf _ o (overload_reference _ o hE)
  refine ⟨?_, hu, ?_⟩
  · exact tuple_like_reference E o h
  · rw [untie_tuple, untiePack_append]
    simp only [detail.untiePack, hu]

/-- C17 at a `std::tuple<int, std::tuple<int, int>&>`: two elements, the second a
reference to the whole inner tuple. -/
theorem reference_element_is_one_leaf_witness :
    (p2165r2.tuple_like ⟨false, .lvalue⟩
        (.tuple [(test.plain, .prim .int 371), (test.plain, .prim .int 372)]) = some false
      ∧ detail.untie (if false then detail.AddConst ⟨false, .lvalue⟩ else ⟨false, .lvalue⟩)
          (.tuple [(test.plain, .prim .int 371), (test.plain, .prim .int 372)])
        = some [⟨if false then detail.AddConst ⟨false, .lvalue⟩ else ⟨false, .lvalue⟩,
            .tuple [(test.plain, .prim .int 371), (test.plain, .prim .int 372)]⟩]
      ∧ detail.untie ⟨false, .none⟩ (.tuple ([(test.plain, .prim .int 370)]
          ++ (⟨false, .lvalue⟩,
            .tuple [(test.plain, .prim .int 371), (test.plain, .prim .int 372)]) :: []))
        = detail.leftFold (detail.untiePack false [(test.plain, .prim .int 370)]
            ++ some [⟨if false then detail.AddConst ⟨false, .lvalue⟩ else ⟨false, .lvalue⟩,
              .tuple [(test.plain, .prim .int 371), (test.plain, .prim .int 372)]⟩]
              :: detail.untiePack false []))
    ∧ untie ⟨.lvalue, false, examples.refToTuple⟩
      = some [.reference ⟨false, .lvalue⟩ (.prim .int 370),
          .reference ⟨false, .lvalue⟩
            (.tuple [(test.plain, .prim .int 371), (test.plain, .prim .int 372)])] :=
  ⟨reference_element_is_one_leaf false ⟨false, .lvalue⟩ _ [(test.plain, .prim .int 370)] []
    (by decide), rfl⟩

/-! ## `AddConst` -/

/-- C18: `AddConst` maps an object type `T` to `const T` and an lvalue reference `T&` to
`const T&`; it is idempotent on every type; and below a const `std::tuple` an inner
`std::tuple`, const or not, passes on to its element exactly the wrapper the outer
const tuple would pass on directly. -/
theorem AddConst_idempotent (T E : Qual) (o : Obj) (k : Bool) :
    (T.ref = .none → detail.AddConst T = ⟨true, .none⟩)
      ∧ (T.ref = .lvalue → detail.AddConst T = ⟨true, .lvalue⟩)
      ∧ detail.AddConst (detail.AddConst T) = detail.AddConst T
      ∧ detail.untie ⟨true, .none⟩ (.tuple [(⟨k, .none⟩, .tuple [(E, o)])])
        = detail.untie ⟨true, .none⟩ (.tuple [(E, o)]) := by
  obtain ⟨c, r⟩ := T
  refine ⟨?_, ?_, ?_, ?_⟩
  · intro h; simp only at h; subst h; simp [detail.AddConst, std.add_const_t]
  · intro h; simp only at h; subst h; simp [detail.AddConst]
  · cases r <;> simp [detail.AddConst, std.add_const_t]
  · have h1 : detail.AddConst ⟨k, .none⟩ = ⟨true, .none⟩ := by
      simp [detail.AddConst, std.add_const_t]
    rw [untie_tuple true [(⟨k, .none⟩, .tuple [(E, o)])]]
    simp only [detail.untiePack, if_true, h1, detail.leftFold, List.foldl_nil]

end untup
